import Mathlib

/-!
Shallow embedding of `naucse/models.py` (the naucse.python.cz model layer)
and proofs about it: the lazy lesson loader of `Course`, the temporal
resolver of `Session._fix_time`, URL resolution and the `_url` property,
primary-key derivation (`get_pks`), `Material`/`License` URL special cases,
the `Material` field validator, and `Root.add_course`.

Modelling conventions:

* Lesson slugs are an arbitrary type `α` with decidable equality; the
  materialized `_lessons` dict of a `Course` is modelled by its key set
  (the `Lesson` values play no role in the verified properties).
* The external renderer (`renderer.get_lessons` plus loading the rendered
  documents through the converter engine) is modelled by a function
  `refs : α → Finset α` giving, for each lesson, the set of lesson slugs
  its rendered content references: while a batch of lessons is loaded,
  each reference that is not already materialized is added to
  `_requested_lessons` via `Course.get_lesson_url` (models.py lines
  954-963, called back from `_sanitize_page_content`).
* Python dicts that the code mutates keyed by strings or years are
  modelled as functions into `Option`; Python `KeyError` /
  `AttributeError` raising paths are modelled by `Option`/`Except`
  results.
* `datetime` timezone objects are an abstract type parameter `τ`:
  `Session._fix_time` never inspects a tzinfo value, it only tests its
  presence and attaches `course.timezone`.  For the worked example the
  instance `τ := Int` records a UTC offset in minutes; per the tz
  database (an external collaborator, reached through `dateutil`),
  Europe/Prague's offset on 2024-03-04 is +60 minutes (+01:00).
-/

namespace Naucse

instance {ε σ : Type} [DecidableEq ε] [DecidableEq σ] : DecidableEq (Except ε σ) := fun a b =>
  match a, b with
  | .ok x, .ok y => if h : x = y then .isTrue (by rw [h]) else .isFalse (by simp [h])
  | .error x, .error y => if h : x = y then .isTrue (by rw [h]) else .isFalse (by simp [h])
  | .ok _, .error _ => .isFalse (by simp)
  | .error _, .ok _ => .isFalse (by simp)

/-! ## Lazy lesson loader (models.py lines 754-772 and 954-1012) -/

/-- Lazy-loading state of one `Course`: the key set of `_lessons`, the set
`_requested_lessons`, and the `_frozen` flag (models.py lines 790-794). -/
structure CourseState (α : Type) where
  lessons : Finset α
  requested : Finset α
  frozen : Bool
  deriving DecidableEq

/-- Errors raised by the lazy loader: `Exception('course is frozen')` from
`Course.load_lessons` (models.py line 967) and the `ValueError` naming the
owning course from `Course.load_all_lessons` (lines 998-999). -/
inductive LoadError where
  | frozenCourse : LoadError
  | depthExceeded : String → LoadError
  deriving DecidableEq

/-- The set of slugs `Course.load_lessons` passes to the external renderer:
`slugs = set(slugs) - set(self._lessons)` (models.py line 968). -/
def fetched_slugs [DecidableEq α] (s : CourseState α) (slugs : Finset α) : Finset α :=
  slugs \ s.lessons

/-- `Course.load_lessons` (models.py lines 965-984).  Fails if the course is
frozen.  Otherwise the renderer is asked for exactly `slugs - _lessons`;
loading the rendered documents adds, for each loaded lesson, its referenced
slugs that are not already materialized to `_requested_lessons` (through
`get_lesson_url`); then each loaded slug is merged into `_lessons` and
discarded from `_requested_lessons`. -/
def load_lessons [DecidableEq α] (refs : α → Finset α) (s : CourseState α)
    (slugs : Finset α) : Except LoadError (CourseState α) :=
  if s.frozen then .error .frozenCourse
  else
    .ok { lessons := s.lessons ∪ fetched_slugs s slugs,
          requested :=
            (s.requested ∪ (fetched_slugs s slugs).biUnion (fun sl => refs sl \ s.lessons))
              \ fetched_slugs s slugs,
          frozen := s.frozen }

/-- The `while self._requested_lessons:` loop of `Course.load_all_lessons`
(models.py lines 990-999), with `depth` the remaining value of the
`link_depth` counter that starts at 50.  The Python loop decrements
`link_depth` after each `load_lessons` round and raises once it drops below
zero, i.e. after the round performed with `depth = 0` here. -/
def load_all_loop [DecidableEq α] (refs : α → Finset α) (slug : String) :
    Nat → CourseState α → Except LoadError (CourseState α)
  | depth, s =>
    if s.requested = ∅ then .ok s
    else if s.requested \ s.lessons = ∅ then .ok { s with requested := s.requested \ s.lessons }
    else
      match load_lessons refs { s with requested := s.requested \ s.lessons }
              (s.requested \ s.lessons), depth with
      | .error err, _ => .error err
      | .ok _, 0 => .error (.depthExceeded slug)
      | .ok s', d + 1 => load_all_loop refs slug d s'

/-- `Course.load_all_lessons` (models.py lines 985-999): no-op when frozen,
otherwise removes already-materialized slugs from `_requested_lessons` and
runs the loading loop with `link_depth = 50`. -/
def load_all_lessons [DecidableEq α] (refs : α → Finset α) (slug : String)
    (s : CourseState α) : Except LoadError (CourseState α) :=
  if s.frozen then .ok s
  else load_all_loop refs slug 50 { s with requested := s.requested \ s.lessons }

/-- `Course.freeze` (models.py lines 1008-1012): no-op when already frozen,
otherwise `load_all_lessons()` then `_frozen = True`. -/
def freeze [DecidableEq α] (refs : α → Finset α) (slug : String)
    (s : CourseState α) : Except LoadError (CourseState α) :=
  if s.frozen then .ok s
  else (load_all_lessons refs slug s).map (fun t => { t with frozen := true })

/-- `_LessonsDict.__iter__` (models.py lines 766-768): freezes the course,
then iterates the keys of `_lessons`.  The result pairs the key set with
the updated course state. -/
def lessons_iter [DecidableEq α] (refs : α → Finset α) (slug : String)
    (s : CourseState α) : Except LoadError (Finset α × CourseState α) :=
  (freeze refs slug s).map (fun t => (t.lessons, t))

/-- `_LessonsDict.__len__` (models.py lines 770-772): freezes the course,
then takes the length of `_lessons`. -/
def lessons_len [DecidableEq α] (refs : α → Finset α) (slug : String)
    (s : CourseState α) : Except LoadError (Nat × CourseState α) :=
  (freeze refs slug s).map (fun t => (t.lessons.card, t))

/-- Result of `Course.get_lesson_url` (models.py lines 954-963): either a
URL string, or — on a frozen course with a slug not in `_lessons` — a
`KeyError` **returned as a value** (the code says `return KeyError(slug)`,
not `raise`), so the result type has no exception channel. -/
inductive LessonUrlResult (α : Type) where
  | url : String → LessonUrlResult α
  | keyError : α → LessonUrlResult α
  deriving DecidableEq

/-- `Course.get_lesson_url` (models.py lines 954-963).  `lessonUrl` stands
for the `self._lessons[slug].get_url(**kw)` call and `pageUrl` for the
`self.root._url_for(Page, ...)` call; both are external URL factories.
Returns the result together with the (possibly updated) course state. -/
def get_lesson_url [DecidableEq α] (lessonUrl : α → String) (pageUrl : α → String)
    (s : CourseState α) (slug : α) : LessonUrlResult α × CourseState α :=
  if slug ∈ s.lessons then (.url (lessonUrl slug), s)
  else if s.frozen then (.keyError slug, s)
  else (.url (pageUrl slug), { s with requested := insert slug s.requested })

/-- The synthetic chain of 51 lessons `0, 1, ..., 50` from the spec's depth
guard test: lesson `n` references lesson `n + 1` for `n < 50` and the last
lesson references nothing. -/
def chainRefs (n : ℕ) : Finset ℕ :=
  if n < 50 then {n + 1} else ∅

/-- Course state at the start of the depth-guard test: nothing materialized,
the head of the chain requested, not frozen. -/
def chainStart : CourseState ℕ :=
  { lessons := ∅, requested := {0}, frozen := false }

/-! ## Temporal resolver (models.py lines 599-635) -/

/-- Calendar date, as `datetime.date` (year, month, day). -/
structure Date where
  year : Nat
  month : Nat
  day : Nat
  deriving DecidableEq

/-- Time of day, as the hour/minute components of `datetime.time`. -/
structure TimeOfDay where
  hour : Nat
  minute : Nat
  deriving DecidableEq

/-- `datetime.datetime` with an optional tzinfo of abstract type `τ`. -/
structure PyDateTime (τ : Type) where
  date : Date
  time : TimeOfDay
  tzinfo : Option τ
  deriving DecidableEq

/-- A value produced by `SessionTimeConverter.load` (models.py lines
475-483) for one of the `start`/`end` keys: either a full
`datetime.datetime` (naive or offset-aware) or a bare `datetime.time`
(which may carry a tzinfo from a `%z` suffix, via `.timetz()`). -/
inductive TimeVal (τ : Type) where
  | dt : PyDateTime τ → TimeVal τ
  | tod : TimeOfDay → Option τ → TimeVal τ
  deriving DecidableEq

/-- The two keys of a session's `time` dict. -/
inductive TimeKind where
  | tStart : TimeKind
  | tEnd : TimeKind
  deriving DecidableEq

/-- The string the code uses for a `TimeKind` (the loop
`for kind in 'start', 'end':`, models.py line 607). -/
def kindName : TimeKind → String
  | .tStart => "start"
  | .tEnd => "end"

/-- `Course.default_time` (models.py lines 828-830), loaded by
`TimeIntervalConverter`: a dict with `start` and `end` times, each parsed
by `time_from_string` and so possibly carrying a tzinfo. -/
structure TimeWindow (τ : Type) where
  windowStart : TimeOfDay × Option τ
  windowEnd : TimeOfDay × Option τ
  deriving DecidableEq

/-- Dict access `default_time[kind]`. -/
def TimeWindow.get (w : TimeWindow τ) : TimeKind → TimeOfDay × Option τ
  | .tStart => w.windowStart
  | .tEnd => w.windowEnd

/-- The `ValueError` of `Session._fix_time` (models.py lines 629-632),
carrying the kind name and the session slug it mentions. -/
inductive FixTimeError where
  | missingTimezone : String → String → FixTimeError
  deriving DecidableEq

/-- The tail of one `_fix_time` loop iteration (models.py lines 627-634):
a still-naive datetime is stamped with the course timezone; if the course
has none this raises the `ValueError` naming the kind and session. -/
def fix_stamp (courseTZ : Option τ) (sessionSlug : String) (kind : TimeKind)
    (d : PyDateTime τ) : Except FixTimeError (Option (PyDateTime τ)) :=
  match d.tzinfo with
  | some _ => .ok (some d)
  | none =>
    match courseTZ with
    | none => .error (.missingTimezone (kindName kind) sessionSlug)
    | some z => .ok (some { d with tzinfo := some z })

/-- One iteration of the `for kind in 'start', 'end':` loop of
`Session._fix_time` (models.py lines 607-634).  A result of `.ok none`
models the `self.time = None; return` early exits (the whole `time`
attribute resolves to absent). -/
def fix_one (courseTZ : Option τ) (defaultTime : Option (TimeWindow τ))
    (date : Option Date) (sessionSlug : String) (kind : TimeKind)
    (tv : Option (TimeVal τ)) : Except FixTimeError (Option (PyDateTime τ)) :=
  match tv with
  | some (.dt d) => fix_stamp courseTZ sessionSlug kind d
  | some (.tod t tz) =>
    match date with
    | some dd => fix_stamp courseTZ sessionSlug kind ⟨dd, t, tz⟩
    | none => .ok none
  | none =>
    match date, defaultTime with
    | some dd, some w => fix_stamp courseTZ sessionSlug kind ⟨dd, (w.get kind).1, (w.get kind).2⟩
    | _, _ => .ok none

/-- `Session._fix_time` (models.py lines 599-635) on an already
shape-checked `time` dict (the converter requires exactly the `start` and
`end` keys): resolves `start` first, then `end`; an early `self.time =
None; return` from either iteration makes the whole attribute absent. -/
def fix_time (courseTZ : Option τ) (defaultTime : Option (TimeWindow τ))
    (date : Option Date) (sessionSlug : String)
    (timeIn : Option (TimeVal τ × TimeVal τ)) :
    Except FixTimeError (Option (PyDateTime τ × PyDateTime τ)) := do
  match ← fix_one courseTZ defaultTime date sessionSlug .tStart (timeIn.map Prod.fst) with
  | none => return none
  | some ds =>
    match ← fix_one courseTZ defaultTime date sessionSlug .tEnd (timeIn.map Prod.snd) with
    | none => return none
    | some de => return some (ds, de)

/-! ## URL resolution (models.py lines 31-35, 102-119, 1261-1272) -/

/-- The URL-resolution exceptions (models.py lines 31-35): `NoURL`
("An object's URL could not be found") and its subclass `NoURLType`
("The requested URL type is not available", carrying the type). -/
inductive UrlError where
  | noURL : UrlError
  | noURLType : String → UrlError
  deriving DecidableEq

/-- Whether `except NoURL:` catches the error, i.e. whether the raised
exception's class is `NoURL` or a subclass.  Since `NoURLType` is declared
as `class NoURLType(NoURL)` (models.py line 34), both are caught. -/
def is_NoURL_instance : UrlError → Bool
  | .noURL => true
  | .noURLType _ => true

/-- `Root._url_for` (models.py lines 1261-1272): look up the factory table
for the URL type (raising `NoURLType` when absent), then the factory for
the node type (raising `NoURL` when absent), then build the URL from the
primary keys. -/
def url_for {T P : Type} (urlFactories : String → Option (T → Option (P → String)))
    (objType : T) (pks : P) (urlType : String) : Except UrlError String :=
  match urlFactories urlType with
  | none => .error (.noURLType urlType)
  | some urls =>
    match urls objType with
    | none => .error .noURL
    | some f => .ok (f pks)

/-- The `Model._url` property (models.py lines 111-116): `try: return
self.get_url(external=True) except NoURL: return None`.  Its argument is
the outcome of the `get_url` call (which, for url_type `"web"`, is a
`url_for` result). -/
def url_property (r : Except UrlError String) : Except UrlError (Option String) :=
  match r with
  | .ok u => .ok (some u)
  | .error e => if is_NoURL_instance e then .ok none else .error e

/-! ## Primary keys (models.py lines 83-89, 107-109, 232-233, 437-438, 1071-1072) -/

/-- The model-slug computation of `Model.__init_subclass__` (models.py
line 87): `re.sub('([A-Z])', r'-\x5c1', name).lower().lstrip('-')` —
a dash inserted before each uppercase letter, everything lowercased, and
leading dashes stripped. -/
def kebab (s : String) : String :=
  ⟨((s.data.flatMap fun c => if c.isUpper then ['-', c] else [c]).map Char.toLower).dropWhile
    (fun c => c = '-')⟩

/-- The concrete `Model` subclasses that have a primary key. -/
inductive MClass where
  | course | session | material | lesson | page | solution
  | staticFile | sessionPage | runYear | license
  deriving DecidableEq

/-- `cls.__name__` for each model class. -/
def className : MClass → String
  | .course => "Course"
  | .session => "Session"
  | .material => "Material"
  | .lesson => "Lesson"
  | .page => "Page"
  | .solution => "Solution"
  | .staticFile => "StaticFile"
  | .sessionPage => "SessionPage"
  | .runYear => "RunYear"
  | .license => "License"

/-- `cls.model_slug`, derived from the class name (models.py lines 83-88;
no class in models.py overrides it). -/
def model_slug (c : MClass) : String := kebab (className c)

/-- The `pk_name` class attribute of each model class. -/
def pk_name : MClass → String
  | .solution => "index"
  | .staticFile => "filename"
  | .runYear => "year"
  | _ => "slug"

/-- The key under which a node's own primary key is stored by `get_pks`:
the default `Model.get_pks` uses `f'{model_slug}_{pk_name}'` (models.py
lines 107-109), but `StaticFile.get_pks` uses `'filename'` (lines
232-233), `SessionPage.get_pks` uses `'page_slug'` (lines 437-438), and
`RunYear.get_pks` uses `'year'` (lines 1071-1072). -/
def pk_key : MClass → String
  | .staticFile => "filename"
  | .sessionPage => "page_slug"
  | .runYear => "year"
  | c => model_slug c ++ "_" ++ pk_name c

/-- A node position in the model graph: `Root`, or a model instance with
its class, its own primary-key value, and its parent.  Primary-key values
are kept opaque as strings. -/
inductive Node where
  | root : Node
  | child : MClass → String → Node → Node
  deriving DecidableEq

/-- `get_pks`: `Root.get_pks` returns `{}` (models.py lines 1258-1259);
every other node returns the parent's mapping extended with its own entry
under `pk_key` (models.py lines 107-109 plus the three overrides).  The
ordered dict is modelled as an ordered association list. -/
def get_pks : Node → List (String × String)
  | .root => []
  | .child c v p => get_pks p ++ [(pk_key c, v)]

/-- A sample lesson node under a course, used as the parent in the
primary-key counterexample. -/
def sampleLesson : Node :=
  Node.child .lesson "intro" (Node.child .course "courses/x" .root)

/-! ## Material and License URLs, Material validation (models.py lines 394-423, 1084-1086) -/

/-- Python truthiness of an optional string field (`if self.lesson_slug:`):
absent and empty strings are falsy. -/
def py_truthy : Option String → Bool
  | none => false
  | some s => s != ""

/-- `License.get_url` (models.py lines 1084-1086): a licence always has an
external URL; every requested URL type gets the stored `url`. -/
def license_get_url (url : String) (urlType : String) : String := url

/-- `Material.get_url` (models.py lines 407-416): forward to
`course.get_lesson_url(lesson_slug)` when `lesson_slug` is truthy (for any
URL type); otherwise raise `NoURLType` for a non-`web` type; otherwise
yield a truthy `external_url`; otherwise raise `NoURL`.  `courseLessonUrl`
stands for the course's `get_lesson_url`. -/
def material_get_url (lessonSlug externalUrl : Option String)
    (courseLessonUrl : String → String) (urlType : String) : Except UrlError String :=
  if py_truthy lessonSlug then .ok (courseLessonUrl (lessonSlug.getD ""))
  else if urlType ≠ "web" then .error (.noURLType urlType)
  else if py_truthy externalUrl then .ok (externalUrl.getD "")
  else .error .noURL

/-- The after-load hook `Material._validate_lesson_slug` (models.py lines
394-399): raises `ValueError` when both `lesson_slug` and `external_url`
are truthy. -/
def validate_lesson_slug (lessonSlug externalUrl : Option String) : Except String Unit :=
  if py_truthy lessonSlug && py_truthy externalUrl then
    .error "external_url and lesson_slug are incompatible"
  else .ok ()

/-! ## Root.add_course (models.py lines 1210-1229) -/

/-- A course as far as `Root.add_course` is concerned: its slug and its
optional `start_date`/`end_date`. -/
structure CourseEntry where
  slug : String
  startDate : Option Date
  endDate : Option Date
  deriving DecidableEq

/-- Dict update `f[k] = v` (or deletion for `v = none`) on a
function-modelled dict. -/
def mapUpd {κ β : Type} [DecidableEq κ] (f : κ → Option β) (k : κ) (v : Option β) :
    κ → Option β :=
  fun k' => if k' = k then v else f k'

/-- Python `range(a, b + 1)`, the year spans iterated by `add_course`. -/
def year_range (a b : Nat) : List Nat := List.range' a (b + 1 - a)

/-- The parts of `Root` state touched by `add_course`: the `courses` dict,
the `run_years` dict of RunYear dicts, and `self_study_courses`
(models.py lines 1109-1112). -/
structure RootState where
  courses : String → Option CourseEntry
  runYears : Nat → Option (String → Option CourseEntry)
  selfStudyCourses : String → Option CourseEntry

/-- The removal loop `for year in range(...): del self.run_years[year][slug]`
(models.py lines 1216-1217).  `none` models the `KeyError` raised when a
year or the slug is missing. -/
def del_run_years (slug : String) :
    List Nat → (Nat → Option (String → Option CourseEntry)) →
      Option (Nat → Option (String → Option CourseEntry))
  | [], ry => some ry
  | y :: ys, ry =>
    match ry y with
    | none => none
    | some m =>
      match m slug with
      | none => none
      | some _ => del_run_years slug ys (mapUpd ry y (some (mapUpd m slug none)))

/-- The insertion loop of `add_course` (models.py lines 1223-1227): for
each year in the course's span, create the `RunYear` if missing and store
the course under its slug. -/
def ins_run_years (slug : String) (c : CourseEntry) :
    List Nat → (Nat → Option (String → Option CourseEntry)) →
      (Nat → Option (String → Option CourseEntry))
  | [], ry => ry
  | y :: ys, ry =>
    ins_run_years slug c ys
      (mapUpd ry y (some (mapUpd ((ry y).getD (fun _ => none)) slug (some c))))

/-- The replacement prologue of `Root.add_course` (models.py lines
1211-1219): when the slug is already present, remove the old course's
entries from `run_years` (if it was time-bound) or from
`self_study_courses` (otherwise).  `none` models the error paths (a
`KeyError` from a missing index entry, or the `AttributeError` from
`old.end_date.year` when `end_date` is `None`). -/
def remove_old (r : RootState) (slug : String) : Option RootState :=
  match r.courses slug with
  | none => some r
  | some old =>
    match old.startDate with
    | some sd =>
      match old.endDate with
      | none => none
      | some ed =>
        (del_run_years slug (year_range sd.year ed.year) r.runYears).map
          (fun ry => { r with runYears := ry })
    | none =>
      match r.selfStudyCourses slug with
      | none => none
      | some _ => some { r with selfStudyCourses := mapUpd r.selfStudyCourses slug none }

/-- The insertion epilogue of `Root.add_course` (models.py lines
1221-1229): store the course in `courses`, then in `run_years` over its
span (time-bound) or in `self_study_courses`. -/
def insert_new (r1 : RootState) (c : CourseEntry) : Option RootState :=
  match c.startDate with
  | some sd =>
    match c.endDate with
    | none => none
    | some ed =>
      some { r1 with
        courses := mapUpd r1.courses c.slug (some c),
        runYears := ins_run_years c.slug c (year_range sd.year ed.year) r1.runYears }
  | none =>
    some { r1 with
      courses := mapUpd r1.courses c.slug (some c),
      selfStudyCourses := mapUpd r1.selfStudyCourses c.slug (some c) }

/-- `Root.add_course` (models.py lines 1210-1229): removal of stale index
entries, then insertion. -/
def add_course (r : RootState) (c : CourseEntry) : Option RootState :=
  match remove_old r c.slug with
  | none => none
  | some r1 => insert_new r1 c

/-- Slug `slug` appears in no `run_years` entry outside `years`. -/
def no_stale_run_years (r : RootState) (slug : String) (years : List Nat) : Prop :=
  ∀ y m, r.runYears y = some m → y ∉ years → m slug = none

/-- Well-formed placement of the already-present course `old` under `slug`:
its index entries are exactly where a prior `add_course` put them — in
`run_years` over its year span when time-bound, in `self_study_courses`
otherwise — and nowhere else. -/
def placed (r : RootState) (slug : String) (old : CourseEntry) : Prop :=
  match old.startDate, old.endDate with
  | some sd, some ed =>
      (∀ y ∈ year_range sd.year ed.year, ∃ m, r.runYears y = some m ∧ (m slug).isSome)
      ∧ no_stale_run_years r slug (year_range sd.year ed.year)
      ∧ r.selfStudyCourses slug = none
  | none, _ =>
      (r.selfStudyCourses slug).isSome
      ∧ no_stale_run_years r slug []
  | some _, none => False

/-- Clean post-state for course `c`: its slug maps to `c` in `courses`,
and the derived indices hold `c` exactly where `c` belongs and hold
nothing for its slug anywhere else — no duplicate or stale entry. -/
def freshly_placed (r' : RootState) (c : CourseEntry) : Prop :=
  r'.courses c.slug = some c ∧
  match c.startDate, c.endDate with
  | some sd, some ed =>
      (∀ y ∈ year_range sd.year ed.year, ∃ m, r'.runYears y = some m ∧ m c.slug = some c)
      ∧ no_stale_run_years r' c.slug (year_range sd.year ed.year)
      ∧ r'.selfStudyCourses c.slug = none
  | none, _ =>
      r'.selfStudyCourses c.slug = some c
      ∧ no_stale_run_years r' c.slug []
  | some _, none => True

/-- Sample pre-existing self-study course for the `add_course` witness. -/
def sampleOld : CourseEntry := ⟨"courses/x", none, none⟩

/-- Sample replacement course, time-bound over 2024-2025. -/
def sampleNew : CourseEntry :=
  ⟨"courses/x", some ⟨2024, 1, 10⟩, some ⟨2025, 2, 1⟩⟩

/-- Sample root state holding `sampleOld` as a self-study course. -/
def sampleRoot : RootState :=
  { courses := fun s => if s = "courses/x" then some sampleOld else none,
    runYears := fun _ => none,
    selfStudyCourses := fun s => if s = "courses/x" then some sampleOld else none }

/-! ## Helper lemmas: lazy loader -/

lemma load_lessons_error_iff [DecidableEq α] {refs : α → Finset α} {s : CourseState α}
    {slugs : Finset α} {e : LoadError} (h : load_lessons refs s slugs = .error e) :
    s.frozen = true ∧ e = .frozenCourse := by
  by_cases hf : s.frozen <;> simp [load_lessons, hf] at h ⊢
  exact h.symm

lemma load_lessons_ok_frozen [DecidableEq α] {refs : α → Finset α} {s s' : CourseState α}
    {slugs : Finset α} (h : load_lessons refs s slugs = .ok s') :
    s'.frozen = s.frozen := by
  by_cases hf : s.frozen <;> simp [load_lessons, hf] at h
  subst h
  simp only [Bool.not_eq_true] at hf
  exact hf.symm

lemma load_all_loop_error_eq [DecidableEq α] (refs : α → Finset α) (slug : String) :
    ∀ (d : ℕ) (s : CourseState α), s.frozen = false → ∀ e,
      load_all_loop refs slug d s = .error e → e = .depthExceeded slug := by
  intro d
  induction d with
  | zero =>
    intro s hs e h
    rw [load_all_loop.eq_def] at h
    by_cases h1 : s.requested = ∅
    · simp [h1] at h
    by_cases h2 : s.requested \ s.lessons = ∅
    · simp [h1, h2] at h
    cases hl : load_lessons refs { s with requested := s.requested \ s.lessons }
        (s.requested \ s.lessons) with
    | error e' =>
      obtain ⟨hf, -⟩ := load_lessons_error_iff hl
      simp [hs] at hf
    | ok s' =>
      simp [h1, h2, hl] at h
      exact h.symm
  | succ d ih =>
    intro s hs e h
    rw [load_all_loop.eq_def] at h
    by_cases h1 : s.requested = ∅
    · simp [h1] at h
    by_cases h2 : s.requested \ s.lessons = ∅
    · simp [h1, h2] at h
    cases hl : load_lessons refs { s with requested := s.requested \ s.lessons }
        (s.requested \ s.lessons) with
    | error e' =>
      obtain ⟨hf, -⟩ := load_lessons_error_iff hl
      simp [hs] at hf
    | ok s' =>
      simp only [if_neg h1, if_neg h2, hl] at h
      exact ih s' (by rw [load_lessons_ok_frozen hl]; exact hs) e h

lemma chain_r (k : ℕ) : ({k} : Finset ℕ) \ Finset.range k = {k} := by
  ext x; simp; omega

lemma chain_load (k : ℕ) (hk : k < 50) :
    load_lessons chainRefs ⟨Finset.range k, {k}, false⟩ {k} =
      .ok ⟨Finset.range (k + 1), {k + 1}, false⟩ := by
  have h2 : Finset.range k ∪ ({k} : Finset ℕ) = Finset.range (k + 1) := by
    ext x; simp [Finset.mem_range]; omega
  have h3 : ({k} : Finset ℕ).biUnion (fun sl => chainRefs sl \ Finset.range k) = {k + 1} := by
    rw [Finset.singleton_biUnion]
    simp only [chainRefs, if_pos hk]
    ext x; simp; omega
  have h4 : (({k} : Finset ℕ) ∪ {k + 1}) \ {k} = {k + 1} := by
    ext x; simp; omega
  simp only [load_lessons, fetched_slugs, Bool.false_eq_true, if_false, chain_r, h3, h4, h2]

lemma chain_step (slug : String) (d k : ℕ) (hk : k < 50) :
    load_all_loop chainRefs slug (d + 1) ⟨Finset.range k, {k}, false⟩ =
      load_all_loop chainRefs slug d ⟨Finset.range (k + 1), {k + 1}, false⟩ := by
  rw [load_all_loop.eq_def]
  have h0 : (({k} : Finset ℕ)) ≠ ∅ := by simp
  have h1 : ({k} : Finset ℕ) \ Finset.range k ≠ ∅ := by rw [chain_r]; simp
  simp only [if_neg h0, if_neg h1, chain_r, chain_load k hk]

lemma chain_run (slug : String) : ∀ d k, d + k = 50 →
    load_all_loop chainRefs slug d ⟨Finset.range k, {k}, false⟩ =
      .error (.depthExceeded slug) := by
  intro d
  induction d with
  | zero =>
    intro k hk
    have hk50 : k = 50 := by omega
    subst hk50
    rw [load_all_loop.eq_def]
    have h0 : (({50} : Finset ℕ)) ≠ ∅ := by simp
    have h1 : ({50} : Finset ℕ) \ Finset.range 50 ≠ ∅ := by rw [chain_r]; simp
    cases hl : load_lessons chainRefs
        ⟨Finset.range 50, ({50} : Finset ℕ) \ Finset.range 50, false⟩
        (({50} : Finset ℕ) \ Finset.range 50) with
    | error e' =>
      obtain ⟨hf, -⟩ := load_lessons_error_iff hl
      simp at hf
    | ok s' =>
      simp only [if_neg h0, if_neg h1, hl]
  | succ d ih =>
    intro k hk
    rw [chain_step slug d k (by omega)]
    exact ih (k + 1) (by omega)

lemma chain_result :
    load_all_lessons chainRefs "chain-course" chainStart =
      .error (.depthExceeded "chain-course") := by
  rw [load_all_lessons]
  simp only [chainStart, Bool.false_eq_true, if_false]
  rw [show ({ lessons := ∅, requested := ({0} : Finset ℕ) \ ∅, frozen := false } : CourseState ℕ)
      = ⟨Finset.range 0, {0}, false⟩ by simp]
  exact chain_run "chain-course" 50 0 rfl

lemma load_lessons_frozen_error [DecidableEq α] (refs : α → Finset α) (s : CourseState α)
    (slugs : Finset α) (h : s.frozen = true) :
    load_lessons refs s slugs = .error .frozenCourse := by
  simp [load_lessons, h]

lemma freeze_frozen [DecidableEq α] (refs : α → Finset α) (slug : String)
    {s : CourseState α} (h : s.frozen = true) : freeze refs slug s = .ok s := by
  simp [freeze, h]

lemma freeze_ok_frozen [DecidableEq α] {refs : α → Finset α} {slug : String}
    {s s' : CourseState α} (h : freeze refs slug s = .ok s') : s'.frozen = true := by
  by_cases hf : s.frozen
  · simp [freeze, hf] at h
    rw [← h]
    exact hf
  · simp only [freeze, hf, if_false, Bool.false_eq_true] at h
    cases hl : load_all_lessons refs slug s with
    | error e => rw [hl] at h; simp [Except.map] at h
    | ok t =>
      rw [hl] at h
      simp only [Except.map, Except.ok.injEq] at h
      rw [← h]

lemma lessons_iter_ok [DecidableEq α] {refs : α → Finset α} {slug : String}
    {s t : CourseState α} {ks : Finset α}
    (h : lessons_iter refs slug s = .ok (ks, t)) :
    freeze refs slug s = .ok t ∧ ks = t.lessons := by
  cases hf : freeze refs slug s with
  | error e => rw [lessons_iter, hf] at h; simp [Except.map] at h
  | ok u =>
    rw [lessons_iter, hf] at h
    simp only [Except.map, Except.ok.injEq, Prod.mk.injEq] at h
    obtain ⟨h1, h2⟩ := h
    subst h2
    exact ⟨rfl, h1.symm⟩

lemma c6_parts [DecidableEq α] (refs : α → Finset α) (s s' : CourseState α)
    (slugs : Finset α) (hf : s.frozen = false)
    (h : load_lessons refs s slugs = .ok s') :
    s'.lessons = s.lessons ∪ slugs
    ∧ fetched_slugs s' slugs = ∅
    ∧ load_lessons refs s' slugs = .ok s'
    ∧ ∀ x ∈ fetched_slugs s slugs, x ∈ s'.lessons ∧ x ∉ s'.requested := by
  simp only [load_lessons, hf, Bool.false_eq_true, if_false, Except.ok.injEq] at h
  have hles : s'.lessons = s.lessons ∪ slugs := by
    rw [← h]
    exact Finset.union_sdiff_self_eq_union
  have hfetch : fetched_slugs s' slugs = ∅ := by
    rw [fetched_slugs, Finset.sdiff_eq_empty_iff_subset, hles]
    exact Finset.subset_union_right
  have hfro : s'.frozen = false := by rw [← h]
  refine ⟨hles, hfetch, ?_, ?_⟩
  · simp only [load_lessons, hfro, Bool.false_eq_true, if_false, hfetch]
    simp only [Finset.union_empty, Finset.biUnion_empty, Finset.sdiff_empty,
      Finset.union_idempotent, Except.ok.injEq]
    rw [← hfro]
  · intro x hx
    rw [fetched_slugs] at hx
    constructor
    · rw [hles]
      exact Finset.mem_union_right _ (Finset.mem_sdiff.mp hx).1
    · rw [← h]
      simp only [CourseState.requested]
      rw [Finset.mem_sdiff]
      intro hc
      exact hc.2 hx

/-! ## Helper lemmas: add_course -/

lemma del_run_years_spec (slug : String) :
    ∀ (ys : List Nat) (ry : Nat → Option (String → Option CourseEntry)), ys.Nodup →
    (∀ y ∈ ys, ∃ m, ry y = some m ∧ (m slug).isSome) →
    ∃ ry', del_run_years slug ys ry = some ry'
      ∧ (∀ y, y ∉ ys → ry' y = ry y)
      ∧ (∀ y ∈ ys, ∃ m, ry' y = some m ∧ m slug = none) := by
  intro ys
  induction ys with
  | nil =>
    intro ry _ _
    exact ⟨ry, rfl, fun y _ => rfl, fun y hy => absurd hy (List.not_mem_nil y)⟩
  | cons y ys ih =>
    intro ry hnd hin
    obtain ⟨m, hm, hms⟩ := hin y (List.mem_cons_self y ys)
    obtain ⟨v, hv⟩ := Option.isSome_iff_exists.mp hms
    have hy_not : y ∉ ys := (List.nodup_cons.mp hnd).1
    have hnd' : ys.Nodup := (List.nodup_cons.mp hnd).2
    set ry1 := mapUpd ry y (some (mapUpd m slug none)) with hry1
    have hin' : ∀ y' ∈ ys, ∃ m', ry1 y' = some m' ∧ (m' slug).isSome := by
      intro y' hy'
      have hne : y' ≠ y := fun h => hy_not (h ▸ hy')
      rw [hry1, mapUpd, if_neg hne]
      exact hin y' (List.mem_cons_of_mem y hy')
    obtain ⟨ry', hdel, hout, hmem⟩ := ih ry1 hnd' hin'
    refine ⟨ry', ?_, ?_, ?_⟩
    · simp only [del_run_years, hm, hv]
      rw [← hry1]
      exact hdel
    · intro y' hy'
      have h1 : y' ∉ ys := fun h => hy' (List.mem_cons_of_mem y h)
      have h2 : y' ≠ y := fun h => hy' (h ▸ List.mem_cons_self y ys)
      rw [hout y' h1, hry1, mapUpd, if_neg h2]
    · intro y' hy'
      rcases List.mem_cons.mp hy' with h | h
      · subst h
        refine ⟨mapUpd m slug none, ?_, ?_⟩
        · rw [hout y' hy_not, hry1, mapUpd, if_pos rfl]
        · rw [mapUpd, if_pos rfl]
      · exact hmem y' h

lemma ins_run_years_spec (slug : String) (c : CourseEntry) :
    ∀ (ys : List Nat) (ry : Nat → Option (String → Option CourseEntry)),
    (∀ y, y ∉ ys → ins_run_years slug c ys ry y = ry y)
    ∧ (∀ y ∈ ys, ∃ m, ins_run_years slug c ys ry y = some m ∧ m slug = some c) := by
  intro ys
  induction ys with
  | nil =>
    intro ry
    exact ⟨fun y _ => rfl, fun y hy => absurd hy (List.not_mem_nil y)⟩
  | cons y ys ih =>
    intro ry
    set m0 := (ry y).getD (fun _ => none) with hm0
    set ry1 := mapUpd ry y (some (mapUpd m0 slug (some c))) with hry1
    obtain ⟨ihout, ihmem⟩ := ih ry1
    constructor
    · intro y' hy'
      have h1 : y' ∉ ys := fun h => hy' (List.mem_cons_of_mem y h)
      have h2 : y' ≠ y := fun h => hy' (h ▸ List.mem_cons_self y ys)
      rw [ins_run_years, ihout y' h1, hry1, mapUpd, if_neg h2]
    · intro y' hy'
      rw [ins_run_years]
      by_cases hys : y' ∈ ys
      · exact ihmem y' hys
      · rcases List.mem_cons.mp hy' with h | h
        · subst h
          refine ⟨mapUpd m0 slug (some c), ?_, ?_⟩
          · rw [ihout y' hys, hry1, mapUpd, if_pos rfl]
          · rw [mapUpd, if_pos rfl]
        · exact absurd h hys

/-! ## Claim theorems -/

/-- Claim C1: for every course, `load_all_lessons` terminates — the loop is
bounded by the `link_depth = 50` counter built into its definition — and
the only error it can produce on a non-frozen course is the `ValueError`
naming the owning course; in particular, on the synthetic chain of 51
lessons each referencing the next, it fails with exactly that error
instead of looping forever. -/
theorem claim_C1_depth_guard :
    (∀ (α : Type) [DecidableEq α] (refs : α → Finset α) (slug : String)
        (s : CourseState α), s.frozen = false → ∀ e,
        load_all_lessons refs slug s = .error e → e = .depthExceeded slug)
    ∧ load_all_lessons chainRefs "chain-course" chainStart =
        .error (.depthExceeded "chain-course") := by
  constructor
  · intro α _ refs slug s hs e h
    rw [load_all_lessons, if_neg (by simp [hs])] at h
    exact load_all_loop_error_eq refs slug 50
      { s with requested := s.requested \ s.lessons } hs e h
  · exact chain_result

/-- Witness for C1: the hypotheses of the universal part are satisfiable —
the chain course is not frozen, and the depth error it produces names the
owning course. -/
theorem claim_C1_witness :
    chainStart.frozen = false
    ∧ LoadError.depthExceeded "chain-course" = LoadError.depthExceeded "chain-course" :=
  ⟨rfl, claim_C1_depth_guard.1 ℕ chainRefs "chain-course" chainStart rfl
    (LoadError.depthExceeded "chain-course") claim_C1_depth_guard.2⟩

/-- Claim C2: `freeze` is idempotent; after a successful `freeze`, every
`load_lessons` call fails with the frozen-course error; iterating the
`lessons` mapping (or taking its length) first forces a freeze, so the
enumeration is stable across repeated calls; and the enumerated key set is
exactly the lesson set fully resolved by `load_all_lessons`. -/
theorem claim_C2_freeze_semantics :
    ∀ (α : Type) [DecidableEq α] (refs : α → Finset α) (slug : String),
    (∀ s s' : CourseState α, freeze refs slug s = .ok s' → freeze refs slug s' = .ok s')
    ∧ (∀ s s' : CourseState α, freeze refs slug s = .ok s' →
        ∀ slugs, load_lessons refs s' slugs = .error .frozenCourse)
    ∧ (∀ (s t : CourseState α) (ks : Finset α), lessons_iter refs slug s = .ok (ks, t) →
        lessons_iter refs slug t = .ok (ks, t) ∧ lessons_len refs slug t = .ok (ks.card, t))
    ∧ (∀ s t : CourseState α, s.frozen = false → load_all_lessons refs slug s = .ok t →
        lessons_iter refs slug s = .ok (t.lessons, { t with frozen := true })) := by
  intro α _ refs slug
  refine ⟨?_, ?_, ?_, ?_⟩
  · intro s s' h
    exact freeze_frozen refs slug (freeze_ok_frozen h)
  · intro s s' h slugs
    exact load_lessons_frozen_error refs s' slugs (freeze_ok_frozen h)
  · intro s t ks h
    obtain ⟨h1, h2⟩ := lessons_iter_ok h
    have ht : t.frozen = true := freeze_ok_frozen h1
    subst h2
    constructor
    · rw [lessons_iter, freeze_frozen refs slug ht]
      rfl
    · rw [lessons_len, freeze_frozen refs slug ht]
      rfl
  · intro s t hs hl
    rw [lessons_iter, freeze, if_neg (by simp [hs]), hl]
    rfl

/-- Witness for C2, on a concrete course: re-freezing a frozen course,
failing `load_lessons` after freeze, stable iteration, and iteration equal
to the fully resolved set. -/
theorem claim_C2_witness :
    freeze (fun _ : ℕ => ∅) "c" ⟨∅, ∅, true⟩ = .ok ⟨∅, ∅, true⟩
    ∧ load_lessons (fun _ : ℕ => ∅) (⟨∅, ∅, true⟩ : CourseState ℕ) {3} = .error .frozenCourse
    ∧ lessons_iter (fun _ : ℕ => ∅) "c" (⟨∅, ∅, true⟩ : CourseState ℕ) = .ok (∅, ⟨∅, ∅, true⟩)
    ∧ lessons_iter (fun _ : ℕ => ∅) "c" (⟨∅, ∅, false⟩ : CourseState ℕ) =
        .ok (∅, ⟨∅, ∅, true⟩) := by
  have h := claim_C2_freeze_semantics ℕ (fun _ => ∅) "c"
  exact ⟨h.1 ⟨∅, ∅, true⟩ ⟨∅, ∅, true⟩ (by decide),
    h.2.1 ⟨∅, ∅, true⟩ ⟨∅, ∅, true⟩ (by decide) {3},
    (h.2.2.1 ⟨∅, ∅, true⟩ ⟨∅, ∅, true⟩ ∅ (by decide)).1,
    h.2.2.2 ⟨∅, ∅, false⟩ ⟨∅, ∅, false⟩ rfl (by decide)⟩

/-- Claim C3: the resolution order of `Session._fix_time` for each of
`start`/`end` — (1) an offset-aware datetime is used as-is; (2) a bare
time is combined with the session's date (keeping an offset it may carry,
stamping the course timezone when naive); (3) an absent value falls back
to the course `default_time` combined with the date; (4) with no date, the
whole time attribute resolves to absent without error; a still-naive
result with no course timezone fails with the `ValueError` naming the kind
and the session; and the worked example: date 2024-03-04, no explicit
time, default_time 09:00-12:00, timezone Europe/Prague (UTC offset +60
minutes on that date) resolves to start 2024-03-04T09:00+01:00. -/
theorem claim_C3_session_time_resolution :
    (∀ (τ : Type) (ctz : Option τ) (dft : Option (TimeWindow τ)) (date : Option Date)
        (slug : String) (k : TimeKind) (d : Date) (t : TimeOfDay) (z : τ),
      fix_one ctz dft date slug k (some (.dt ⟨d, t, some z⟩)) = .ok (some ⟨d, t, some z⟩))
    ∧ (∀ (τ : Type) (z : τ) (dft : Option (TimeWindow τ)) (dd : Date) (slug : String)
        (k : TimeKind) (t : TimeOfDay),
      fix_one (some z) dft (some dd) slug k (some (.tod t none)) = .ok (some ⟨dd, t, some z⟩))
    ∧ (∀ (τ : Type) (ctz : Option τ) (dft : Option (TimeWindow τ)) (dd : Date)
        (slug : String) (k : TimeKind) (t : TimeOfDay) (z : τ),
      fix_one ctz dft (some dd) slug k (some (.tod t (some z))) = .ok (some ⟨dd, t, some z⟩))
    ∧ (∀ (τ : Type) (z : τ) (dd : Date) (slug : String) (t1 t2 : TimeOfDay),
      fix_one (some z) (some ⟨(t1, none), (t2, none)⟩) (some dd) slug .tStart none =
          .ok (some ⟨dd, t1, some z⟩)
        ∧ fix_one (some z) (some ⟨(t1, none), (t2, none)⟩) (some dd) slug .tEnd none =
          .ok (some ⟨dd, t2, some z⟩))
    ∧ (∀ (τ : Type) (ctz : Option τ) (dft : Option (TimeWindow τ)) (slug : String)
        (t1 t2 : TimeOfDay) (tz1 tz2 : Option τ),
      fix_time ctz dft none slug (some (.tod t1 tz1, .tod t2 tz2)) = .ok none
        ∧ fix_time ctz dft none slug none = .ok none)
    ∧ (∀ (τ : Type) (dft : Option (TimeWindow τ)) (dd : Date) (slug : String)
        (k : TimeKind) (t : TimeOfDay),
      fix_one (none : Option τ) dft (some dd) slug k (some (.tod t none)) =
        .error (.missingTimezone (kindName k) slug))
    ∧ fix_time (τ := Int) (some 60) (some ⟨(⟨9, 0⟩, none), (⟨12, 0⟩, none)⟩)
        (some ⟨2024, 3, 4⟩) "session-1" none =
        .ok (some (⟨⟨2024, 3, 4⟩, ⟨9, 0⟩, some 60⟩, ⟨⟨2024, 3, 4⟩, ⟨12, 0⟩, some 60⟩)) := by
  refine ⟨?_, ?_, ?_, ?_, ?_, ?_, ?_⟩
  · intro τ ctz dft date slug k d t z
    rfl
  · intro τ z dft dd slug k t
    rfl
  · intro τ ctz dft dd slug k t z
    rfl
  · intro τ z dd slug t1 t2
    exact ⟨rfl, rfl⟩
  · intro τ ctz dft slug t1 t2 tz1 tz2
    exact ⟨rfl, rfl⟩
  · intro τ dft dd slug k t
    rfl
  · rfl

/-- Counterexample to claim C4 as stated: when `get_url` fails with
`NoURLType` (here because no factory table is registered for the `"web"`
type), the `_url` property yields `None` — it does **not** propagate the
error, because `except NoURL:` also catches the subclass `NoURLType`
(models.py lines 31-35 and 111-116). -/
theorem claim_C4_counterexample :
    url_for (fun _ : String => (none : Option (Unit → Option (Unit → String)))) () () "web"
      = .error (.noURLType "web")
    ∧ url_property (.error (.noURLType "web")) = .ok none
    ∧ url_property (.error (.noURLType "web")) ≠ .error (.noURLType "web") := by
  refine ⟨rfl, rfl, ?_⟩
  decide

/-- Claim C4, amended: the `_url` property catches `NoURL` and yields an
absent value; since `NoURLType` is declared as a subclass of `NoURL`, a
`NoURLType` failure is caught and yields an absent value as well, rather
than being propagated. -/
theorem claim_C4_amended :
    ∀ (T P : Type) (fac : String → Option (T → Option (P → String))) (t : T) (p : P)
      (e : UrlError), url_for fac t p "web" = .error e →
      url_property (url_for fac t p "web") = .ok none := by
  intro T P fac t p e h
  rw [h]
  cases e <;> rfl

/-- Witness for the amended C4, at a factory table with no `"web"` entry. -/
theorem claim_C4_witness :
    url_for (fun _ : String => (none : Option (Unit → Option (Unit → String)))) () () "web"
      = .error (.noURLType "web")
    ∧ url_property (url_for
        (fun _ : String => (none : Option (Unit → Option (Unit → String)))) () () "web")
      = .ok none :=
  ⟨rfl, claim_C4_amended Unit Unit (fun _ => none) () () (.noURLType "web") rfl⟩

/-- Counterexample to claim C5 as stated: `StaticFile.get_pks` (models.py
lines 232-233) extends the parent's mapping under the plain key
`"filename"`, not under `"<node_kind>_<own_key_field>"` which would be
`"static-file_filename"`. -/
theorem claim_C5_counterexample :
    model_slug .staticFile = "static-file"
    ∧ pk_name .staticFile = "filename"
    ∧ get_pks (Node.child .staticFile "foo.png" sampleLesson)
        = get_pks sampleLesson ++ [("filename", "foo.png")]
    ∧ get_pks (Node.child .staticFile "foo.png" sampleLesson)
        ≠ get_pks sampleLesson ++ [("static-file_filename", "foo.png")] := by
  refine ⟨by decide, rfl, rfl, by decide⟩

/-- Claim C5, amended: for every node except Root, `get_pks` returns the
parent's mapping extended with exactly one new entry, and the entry's key
is `"<node_kind>_<own_key_field>"` for all classes that inherit
`Model.get_pks` — but `StaticFile`, `SessionPage` and `RunYear` override
it with the unprefixed keys `"filename"`, `"page_slug"` and `"year"`.
The result is pure and deterministic from the node's graph position
(it is a function of the node alone). -/
theorem claim_C5_amended :
    ∀ (v : String) (p : Node),
      get_pks (Node.child .course v p) = get_pks p ++ [("course_slug", v)]
      ∧ get_pks (Node.child .session v p) = get_pks p ++ [("session_slug", v)]
      ∧ get_pks (Node.child .material v p) = get_pks p ++ [("material_slug", v)]
      ∧ get_pks (Node.child .lesson v p) = get_pks p ++ [("lesson_slug", v)]
      ∧ get_pks (Node.child .page v p) = get_pks p ++ [("page_slug", v)]
      ∧ get_pks (Node.child .solution v p) = get_pks p ++ [("solution_index", v)]
      ∧ get_pks (Node.child .license v p) = get_pks p ++ [("license_slug", v)]
      ∧ get_pks (Node.child .staticFile v p) = get_pks p ++ [("filename", v)]
      ∧ get_pks (Node.child .sessionPage v p) = get_pks p ++ [("page_slug", v)]
      ∧ get_pks (Node.child .runYear v p) = get_pks p ++ [("year", v)] := by
  intro v p
  refine ⟨?_, ?_, ?_, ?_, ?_, ?_, ?_, ?_, ?_, ?_⟩ <;>
    first
      | exact (show pk_key .course = "course_slug" by decide) ▸ rfl
      | exact (show pk_key .session = "session_slug" by decide) ▸ rfl
      | exact (show pk_key .material = "material_slug" by decide) ▸ rfl
      | exact (show pk_key .lesson = "lesson_slug" by decide) ▸ rfl
      | exact (show pk_key .page = "page_slug" by decide) ▸ rfl
      | exact (show pk_key .solution = "solution_index" by decide) ▸ rfl
      | exact (show pk_key .license = "license_slug" by decide) ▸ rfl
      | rfl

/-- Claim C6: on a non-frozen course, `load_lessons` fetches from the
renderer exactly the requested slugs minus the already-materialized ones;
after a successful call the given slugs are all materialized, so a second
call with the same slug set fetches the empty set and leaves the state
unchanged; and each fetched lesson ends up materialized and removed from
the requested set. -/
theorem claim_C6_load_lessons_idempotent :
    ∀ (α : Type) [DecidableEq α] (refs : α → Finset α) (s s' : CourseState α)
      (slugs : Finset α), s.frozen = false → load_lessons refs s slugs = .ok s' →
      fetched_slugs s slugs = slugs \ s.lessons
      ∧ s'.lessons = s.lessons ∪ slugs
      ∧ fetched_slugs s' slugs = ∅
      ∧ load_lessons refs s' slugs = .ok s'
      ∧ ∀ x ∈ fetched_slugs s slugs, x ∈ s'.lessons ∧ x ∉ s'.requested :=
  fun _ _ refs s s' slugs hf h => ⟨rfl, c6_parts refs s s' slugs hf h⟩

/-- Witness for C6 on a concrete course: loading `{1}` into an empty
course materializes it, and a second identical call fetches nothing and is
the identity. -/
theorem claim_C6_witness :
    fetched_slugs (⟨∅, ∅, false⟩ : CourseState ℕ) {1} = {1} \ (∅ : Finset ℕ)
    ∧ (⟨{1}, ∅, false⟩ : CourseState ℕ).lessons = ∅ ∪ {1}
    ∧ fetched_slugs (⟨{1}, ∅, false⟩ : CourseState ℕ) {1} = ∅
    ∧ load_lessons (fun _ : ℕ => ∅) ⟨{1}, ∅, false⟩ {1} = .ok ⟨{1}, ∅, false⟩
    ∧ ∀ x ∈ fetched_slugs (⟨∅, ∅, false⟩ : CourseState ℕ) {1},
        x ∈ (⟨{1}, ∅, false⟩ : CourseState ℕ).lessons
        ∧ x ∉ (⟨{1}, ∅, false⟩ : CourseState ℕ).requested :=
  claim_C6_load_lessons_idempotent ℕ (fun _ => ∅) ⟨∅, ∅, false⟩ ⟨{1}, ∅, false⟩ {1}
    rfl (by decide)

/-- Claim C7: a License's `get_url` returns its stored URL for every
requested URL type; a Material's `get_url` forwards to the course's lesson
URL whenever `lesson_slug` is set (for any URL type), yields its
`external_url` for the `"web"` type otherwise, and fails with `NoURL` on a
`"web"` request when it has neither. -/
theorem claim_C7_url_special_cases :
    (∀ (url kind : String), license_get_url url kind = url)
    ∧ (∀ (sl : String), sl ≠ "" → ∀ (eu : Option String) (f : String → String) (kind : String),
        material_get_url (some sl) eu f kind = .ok (f sl))
    ∧ (∀ (f : String → String), material_get_url none none f "web" = .error .noURL)
    ∧ (∀ (eu : String), eu ≠ "" → ∀ (f : String → String),
        material_get_url none (some eu) f "web" = .ok eu) := by
  refine ⟨fun _ _ => rfl, ?_, ?_, ?_⟩
  · intro sl hsl eu f kind
    simp [material_get_url, py_truthy, hsl]
  · intro f
    rfl
  · intro eu heu f
    simp [material_get_url, py_truthy, heu]

/-- Witness for C7 on concrete materials and a concrete license. -/
theorem claim_C7_witness :
    license_get_url "https://cc.org/by" "api" = "https://cc.org/by"
    ∧ material_get_url (some "intro") none (fun s => "url-of-" ++ s) "web"
        = .ok "url-of-intro"
    ∧ material_get_url none none (fun s => "url-of-" ++ s) "web" = .error .noURL
    ∧ material_get_url none (some "https://x") (fun s => "url-of-" ++ s) "web"
        = .ok "https://x" := by
  have h := claim_C7_url_special_cases
  exact ⟨h.1 "https://cc.org/by" "api",
    h.2.1 "intro" (by decide) none (fun s => "url-of-" ++ s) "web",
    h.2.2.1 (fun s => "url-of-" ++ s),
    h.2.2.2 "https://x" (by decide) (fun s => "url-of-" ++ s)⟩

/-- Claim C8: `lesson_slug` and `external_url` are mutually exclusive —
the after-load hook fails with the `ValueError` when both are set
(non-empty), and passes when at most one of them is present. -/
theorem claim_C8_mutually_exclusive :
    (∀ (sl eu : String), sl ≠ "" → eu ≠ "" →
      validate_lesson_slug (some sl) (some eu) =
        .error "external_url and lesson_slug are incompatible")
    ∧ (∀ (v : Option String),
        validate_lesson_slug v none = .ok () ∧ validate_lesson_slug none v = .ok ()) := by
  constructor
  · intro sl eu hsl heu
    simp [validate_lesson_slug, py_truthy, hsl, heu]
  · intro v
    constructor
    · simp [validate_lesson_slug, py_truthy]
    · simp [validate_lesson_slug, py_truthy]

/-- Witness for C8 at the spec's concrete inputs `lesson_slug="intro"`,
`external_url="https://x"`. -/
theorem claim_C8_witness :
    validate_lesson_slug (some "intro") (some "https://x") =
      .error "external_url and lesson_slug are incompatible"
    ∧ validate_lesson_slug (some "intro") none = .ok () := by
  have h := claim_C8_mutually_exclusive
  exact ⟨h.1 "intro" "https://x" (by decide) (by decide), (h.2 (some "intro")).1⟩

/-- Claim C9: re-adding a course whose slug already exists (with the old
course's index entries where a prior `add_course` left them, and the new
course satisfying the both-or-none date invariant) succeeds and leaves a
clean state: the slug maps to the new course, the new course sits in
exactly the indices it belongs to, and no stale or duplicate entry for the
slug survives anywhere — the whole replacement is one atomic step of
`add_course` from the caller's point of view. -/
theorem claim_C9_add_course_replace (r : RootState) (c old : CourseEntry)
    (h_old : r.courses c.slug = some old)
    (h_placed : placed r c.slug old)
    (h_dates : c.startDate.isSome = c.endDate.isSome) :
    ∃ r', add_course r c = some r' ∧ freshly_placed r' c := by
  have step1 : ∃ r1, remove_old r c.slug = some r1
      ∧ r1.courses = r.courses
      ∧ (∀ y m, r1.runYears y = some m → m c.slug = none)
      ∧ r1.selfStudyCourses c.slug = none := by
    rw [placed] at h_placed
    cases hsd : old.startDate with
    | none =>
      rw [hsd] at h_placed
      obtain ⟨hss, hstale⟩ := h_placed
      obtain ⟨oldv, holdv⟩ := Option.isSome_iff_exists.mp hss
      refine ⟨{ r with selfStudyCourses := mapUpd r.selfStudyCourses c.slug none },
        ?_, rfl, ?_, ?_⟩
      · simp only [remove_old, h_old, hsd, holdv]
      · intro y m hm
        exact hstale y m hm (List.not_mem_nil y)
      · simp only [mapUpd, if_pos]
    | some sd =>
      cases hed : old.endDate with
      | none =>
        rw [hsd, hed] at h_placed
        exact absurd h_placed (by simp)
      | some ed =>
        rw [hsd, hed] at h_placed
        obtain ⟨hmem, hstale, hss⟩ := h_placed
        obtain ⟨ry', hdel, hout, hdmem⟩ :=
          del_run_years_spec c.slug (year_range sd.year ed.year) r.runYears
            (List.nodup_range' _ _) hmem
        refine ⟨{ r with runYears := ry' }, ?_, rfl, ?_, hss⟩
        · simp only [remove_old, h_old, hsd, hed, hdel, Option.map_some']
        · intro y m hm
          have hm2 : ry' y = some m := hm
          by_cases hy : y ∈ year_range sd.year ed.year
          · obtain ⟨m', hm', hm's⟩ := hdmem y hy
            rw [hm2] at hm'
            cases hm'
            exact hm's
          · rw [hout y hy] at hm2
            exact hstale y m hm2 hy
  obtain ⟨r1, hrem, hcou, hry, hss⟩ := step1
  cases hcsd : c.startDate with
  | none =>
    refine ⟨{ r1 with
        courses := mapUpd r1.courses c.slug (some c),
        selfStudyCourses := mapUpd r1.selfStudyCourses c.slug (some c) },
      ?_, ?_⟩
    · simp only [add_course, hrem, insert_new, hcsd]
    · rw [freshly_placed, hcsd]
      refine ⟨?_, ?_, ?_⟩
      · simp only [mapUpd, if_pos]
      · simp only [mapUpd, if_pos]
      · intro y m hm _
        exact hry y m hm
  | some sd =>
    have hced : ∃ ed, c.endDate = some ed := by
      rw [hcsd] at h_dates
      exact Option.isSome_iff_exists.mp (by rw [← h_dates]; rfl)
    obtain ⟨ed, hed⟩ := hced
    obtain ⟨iout, imem⟩ :=
      ins_run_years_spec c.slug c (year_range sd.year ed.year) r1.runYears
    refine ⟨{ r1 with
        courses := mapUpd r1.courses c.slug (some c),
        runYears := ins_run_years c.slug c (year_range sd.year ed.year) r1.runYears },
      ?_, ?_⟩
    · simp only [add_course, hrem, insert_new, hcsd, hed]
    · rw [freshly_placed, hcsd, hed]
      refine ⟨?_, ?_, ?_, hss⟩
      · simp only [mapUpd, if_pos]
      · intro y hy
        exact imem y hy
      · intro y m hm hy
        have hm2 : ins_run_years c.slug c (year_range sd.year ed.year) r1.runYears y
            = some m := hm
        rw [iout y hy] at hm2
        exact hry y m hm2

/-- Witness for C9: replacing a self-study course by a 2024-2025 run of
the same slug. -/
theorem claim_C9_witness :
    ∃ r', add_course sampleRoot sampleNew = some r' ∧ freshly_placed r' sampleNew :=
  claim_C9_add_course_replace sampleRoot sampleNew sampleOld
    (by simp [sampleRoot, sampleNew])
    ⟨by simp [sampleRoot, sampleNew], fun y m hm _ => by simp [sampleRoot] at hm⟩
    rfl

/-- Claim C10: on a frozen course, `get_lesson_url` for a slug that is not
materialized returns the `KeyError` as an ordinary value — the result type
of the embedding has no exception channel because the code `return`s the
exception object — and leaves the course state (in particular the
requested-lessons set) unchanged. -/
theorem claim_C10_get_lesson_url_frozen :
    ∀ (α : Type) [DecidableEq α] (lessonUrl pageUrl : α → String)
      (s : CourseState α) (slug : α), s.frozen = true → slug ∉ s.lessons →
      get_lesson_url lessonUrl pageUrl s slug = (.keyError slug, s) := by
  intro α _ lu pu s slug hf hm
  simp [get_lesson_url, hf, hm]

/-- Witness for C10 on a concrete frozen course and unknown slug. -/
theorem claim_C10_witness :
    get_lesson_url (fun _ => "lesson") (fun _ => "page") (⟨∅, ∅, true⟩ : CourseState ℕ) 7 =
      (.keyError 7, ⟨∅, ∅, true⟩) :=
  claim_C10_get_lesson_url_frozen ℕ (fun _ => "lesson") (fun _ => "page")
    ⟨∅, ∅, true⟩ 7 rfl (by decide)

end Naucse
